import Mathlib

/-!
# gum table: `Options.Run` (table/command.go)

A shallow embedding of `Options.Run`, the shell interface that renders CSV data
as a static table or as an interactive, row-selectable table.

Go strings are embedded as `String` (a sequence of Unicode scalar values, that
is, Go strings holding valid UTF-8), `[]string` as `List String`, Go `int` as
`Int`.  The collaborators `Run` calls and whose code is outside `command.go`
are embedded as follows:

* `encoding/csv` (Go standard library): the reader is a cursor over the records
  that the parser yields for the configured `Comma`; delimiter validation and
  the `FieldsPerRecord` rule of `readRecord` are embedded, the tokenizer is
  not.  `Writer.Write` is embedded in full.
* `lipgloss.Width`, the static renderer and the `tea` program are fields of the
  environment `Env`.
* `lipgloss.Style.Inherit` and `table.DefaultStyles` are embedded from the
  library.
-/

namespace GumTable

/-! ## Data model -/

deriving instance DecidableEq for Except

/-- One record of cells: `table.Row`, and a record of the csv package. -/
abbrev Row := List String

/-- The bubbles `table.Column`. -/
structure Column where
  Title : String
  Width : Int
  deriving DecidableEq, Repr

/-- The errors `Run` returns, one constructor per `fmt.Errorf` of `command.go`. -/
inductive RunError where
  /-- The message "could not find file at path %s". -/
  | couldNotFindFile (path : String)
  /-- The message "no data provided". -/
  | noDataProvided
  /-- The message "separator must be single character". -/
  | separatorMustBeSingleCharacter
  /-- The message "unable to parse columns". -/
  | unableToParseColumns
  /-- The message "invalid data provided". -/
  | invalidDataProvided
  /-- The message "invalid number of columns". -/
  | invalidNumberOfColumns
  /-- The message "failed to start tea program: %w". -/
  | failedToStartTeaProgram (cause : String)
  /-- The message "failed to get selection". -/
  | failedToGetSelection
  /-- The message "failed to write selected row: %w". -/
  | failedToWriteSelectedRow (cause : String)
  deriving DecidableEq, Repr

/-! ## Column model (command.go lines 59-70) -/

/-- The loop `for i, title := range columnNames` of `Run`, started at index `i`:
the width is `lipgloss.Width(title)` unless `len(o.Widths) > i`, in which case
it is `o.Widths[i]`. -/
def buildColumnsFrom (width : String → Int) (widths : List Int) :
    Nat → List String → List Column
  | _, [] => []
  | i, title :: rest =>
    { Title := title
      Width := match widths.get? i with
        | some w => w
        | none => width title } :: buildColumnsFrom width widths (i + 1) rest

/-- The column slice `columns` of `Run`. -/
def buildColumns (width : String → Int) (widths : List Int) (columnNames : List String) :
    List Column :=
  buildColumnsFrom width widths 0 columnNames

/-! ## Row store (command.go lines 80-86) -/

/-- The loop `for _, row := range data` of `Run`: a row longer than the column
slice stops `Run` with "invalid number of columns"; otherwise the row is
appended as it is. -/
def buildRows (columns : List Column) : List Row → Except RunError (List Row)
  | [] => .ok []
  | row :: rest =>
    if row.length > columns.length then .error .invalidNumberOfColumns
    else
      match buildRows columns rest with
      | .ok rows => .ok (row :: rows)
      | .error e => .error e

/-- The index of the first record that has more cells than there are columns,
if there is one (used to state claims; `Run` does not compute it). -/
def firstOverlong (columns : List Column) : List Row → Option Nat
  | [] => none
  | row :: rest =>
    if row.length > columns.length then some 0
    else (firstOverlong columns rest).map (· + 1)

/-! ## The csv package of the Go standard library -/

/-- The double quote `"`. -/
def quoteChar : Char := Char.ofNat 34

/-- The carriage return. -/
def crChar : Char := Char.ofNat 13

/-- The line feed. -/
def lfChar : Char := Char.ofNat 10

/-- The csv `validDelim`: `r != 0 && r != '"' && r != '\r' && r != '\n' &&
utf8.ValidRune(r) && r != utf8.RuneError`.  Every `Char` is a valid rune. -/
def validDelim (r : Char) : Bool :=
  r != Char.ofNat 0 && r != quoteChar && r != crChar && r != lfChar && r != Char.ofNat 0xFFFD

/-- What the csv tokenizer yields from a byte stream under one delimiter: the
records before the end of the stream or before the first parse error, and
whether the stream stops on a parse error instead of the end of the file. -/
structure Parsed where
  records : List Row
  malformed : Bool

/-- A byte stream (a file, or standard input) as seen by the csv reader: the
records it tokenizes to, for each value of `Comma`. -/
abbrev Source := Char → Parsed

/-- The errors of `Reader.readRecord`. -/
inductive ReadError where
  | errInvalidDelim
  | eof
  | parseError
  | errFieldCount
  deriving DecidableEq, Repr

/-- The csv `Reader`: the stream, the fields `Comma` and `FieldsPerRecord`, and
the number of records consumed so far. -/
structure Reader where
  src : Source
  Comma : Char
  FieldsPerRecord : Int
  pos : Nat

/-- The csv `NewReader`: `Comma` is `,` and `FieldsPerRecord` is 0. -/
def NewReader (src : Source) : Reader :=
  { src := src, Comma := Char.ofNat 44, FieldsPerRecord := 0, pos := 0 }

/-- The end of `readRecord`, "check or update the expected fields per record":
with `FieldsPerRecord > 0` a record of another length is `ErrFieldCount`, with
`FieldsPerRecord == 0` the field is set to the length of this record.  The
result is the new value of `FieldsPerRecord`. -/
def checkFields (fieldsPerRecord : Int) (dst : Row) : Except ReadError Int :=
  if fieldsPerRecord > 0 then
    if (dst.length : Int) ≠ fieldsPerRecord then .error .errFieldCount
    else .ok fieldsPerRecord
  else if fieldsPerRecord = 0 then .ok (dst.length : Int)
  else .ok fieldsPerRecord

/-- The csv `Reader.Read` (`readRecord`): the delimiter is validated first, then
the next record is taken from the stream (`io.EOF` when there is none), then
the field count is checked. -/
def Reader.Read (r : Reader) : Except ReadError Row × Reader :=
  if !validDelim r.Comma then (.error .errInvalidDelim, r)
  else
    match (r.src r.Comma).records.get? r.pos with
    | none => (.error (if (r.src r.Comma).malformed then .parseError else .eof), r)
    | some dst =>
      match checkFields r.FieldsPerRecord dst with
      | .error e => (.error e, { r with pos := r.pos + 1 })
      | .ok n => (.ok dst, { r with pos := r.pos + 1, FieldsPerRecord := n })

/-- The loop of `Reader.ReadAll` over the records not yet consumed: records are
appended until `io.EOF`; any other error discards them.  The second component
counts the records consumed. -/
def readAllLoop (malformed : Bool) : Int → List Row → Except ReadError (List Row) × Nat
  | _, [] => (if malformed then .error .parseError else .ok [], 0)
  | fieldsPerRecord, dst :: rest =>
    match checkFields fieldsPerRecord dst with
    | .error e => (.error e, 1)
    | .ok n =>
      match readAllLoop malformed n rest with
      | (.ok records, k) => (.ok (dst :: records), k + 1)
      | (.error e, k) => (.error e, k + 1)

/-- The csv `Reader.ReadAll`, with the position of the reader afterwards. -/
def Reader.ReadAll (r : Reader) : Except ReadError (List Row) × Nat :=
  if !validDelim r.Comma then (.error .errInvalidDelim, r.pos)
  else
    match readAllLoop (r.src r.Comma).malformed r.FieldsPerRecord
        ((r.src r.Comma).records.drop r.pos) with
    | (res, k) => (res, r.pos + k)

/-- The `unicode.IsSpace` of Go: the Latin-1 spaces, then the White_Space table. -/
def isSpace (r : Char) : Bool :=
  let n := r.toNat
  if n ≤ 0xFF then
    n == 9 || n == 10 || n == 11 || n == 12 || n == 13 || n == 32 || n == 0x85 || n == 0xA0
  else
    n == 0x1680 || (0x2000 ≤ n && n ≤ 0x200A) || n == 0x2028 || n == 0x2029 ||
      n == 0x202F || n == 0x205F || n == 0x3000

/-- The field `\.` that the writer always quotes. -/
def backslashDot : String := String.mk [Char.ofNat 92, Char.ofNat 46]

/-- The csv `Writer.fieldNeedsQuotes`: false for the empty field, true for `\.`,
true when the field holds the delimiter, a quote, a carriage return or a line
feed, and otherwise whether the first rune is a space. -/
def fieldNeedsQuotes (comma : Char) (field : String) : Bool :=
  if field = "" then false
  else if field = backslashDot then true
  else if field.data.any (fun c => c == comma || c == quoteChar || c == crChar || c == lfChar)
  then true
  else
    match field.data with
    | [] => false
    | r1 :: _ => isSpace r1

/-- The quoting loop of `Writer.Write` with `UseCRLF` false (as `NewWriter`
leaves it): a quote is written twice, every other character as it is. -/
def escapeQuotes : List Char → List Char
  | [] => []
  | c :: cs => if c = quoteChar then quoteChar :: quoteChar :: escapeQuotes cs
    else c :: escapeQuotes cs

/-- One field as `Writer.Write` writes it. -/
def writeField (comma : Char) (field : String) : String :=
  if !fieldNeedsQuotes comma field then field
  else String.mk (quoteChar :: escapeQuotes field.data ++ [quoteChar])

/-- The loop `for n, field := range record` of `Writer.Write`: the delimiter
before every field but the first (`n > 0`), then the field. -/
def writeFields (comma : Char) : Nat → Row → String
  | _, [] => ""
  | n, field :: rest =>
    (if n > 0 then String.singleton comma else "") ++ writeField comma field ++
      writeFields comma (n + 1) rest

/-- The csv `Writer.Write` followed by `Flush` on a writer whose `Comma` is
`comma`: the text that reaches the underlying stream, or the error
`errInvalidDelim`.  The record ends with a line feed. -/
def Writer.Write (comma : Char) (record : Row) : Except String String :=
  if !validDelim comma then .error "csv: invalid field or comment delimiter"
  else .ok (writeFields comma 0 record ++ String.singleton lfChar)

/-- The text `s ++ a1 ++ s ++ a2 ++ ...`: every string of the list preceded by
the separator. -/
def joinTail (s : String) : List String → String
  | [] => ""
  | a :: rest => s ++ a ++ joinTail s rest

/-! ## Styles: lipgloss `Style`, `Inherit`, and the defaults of the bubbles table -/

/-- The property keys of a lipgloss `Style`. -/
inductive PropKey where
  | boldKey | italicKey | underlineKey | strikethroughKey | reverseKey | blinkKey | faintKey
  | foregroundKey | backgroundKey | widthKey | heightKey
  | alignHorizontalKey | alignVerticalKey
  | paddingTopKey | paddingRightKey | paddingBottomKey | paddingLeftKey
  | colorWhitespaceKey
  | marginTopKey | marginRightKey | marginBottomKey | marginLeftKey | marginBackgroundKey
  | borderStyleKey | borderTopKey | borderRightKey | borderBottomKey | borderLeftKey
  | borderTopForegroundKey | borderRightForegroundKey
  | borderBottomForegroundKey | borderLeftForegroundKey
  | borderTopBackgroundKey | borderRightBackgroundKey
  | borderBottomBackgroundKey | borderLeftBackgroundKey
  | inlineKey | maxWidthKey | maxHeightKey | underlineSpacesKey | strikethroughSpacesKey
  deriving DecidableEq, Repr

/-- The value of a style property: a flag, a number, or a text (a color, a
border name). -/
inductive Value where
  | flag (b : Bool)
  | num (n : Int)
  | text (s : String)
  deriving DecidableEq, Repr

/-- A lipgloss `Style`: its rules, the value of each property that has been set
explicitly (`none` when the property is unset). -/
structure Style where
  rules : PropKey → Option Value

/-- The lipgloss `NewStyle()`: no property is set. -/
def NewStyle : Style := { rules := fun _ => none }

/-- Setting one property, as the setters `Bold`, `Foreground`, ... do. -/
def Style.set (s : Style) (k : PropKey) (v : Value) : Style :=
  { rules := fun k2 => if k2 = k then some v else s.rules k2 }

/-- The lipgloss `isSet`. -/
def Style.isSet (s : Style) (k : PropKey) : Bool := (s.rules k).isSome

/-- The four margin keys that `Inherit` skips ("margins are not inherited"). -/
def PropKey.isMargin : PropKey → Bool
  | .marginTopKey | .marginRightKey | .marginBottomKey | .marginLeftKey => true
  | _ => false

/-- The four padding keys that `Inherit` skips ("padding is not inherited"). -/
def PropKey.isPadding : PropKey → Bool
  | .paddingTopKey | .paddingRightKey | .paddingBottomKey | .paddingLeftKey => true
  | _ => false

/-- The lipgloss `s.Inherit(i)`, property by property.  For every key that `i`
sets: margins and paddings are skipped; for the background, the margin
background of `s` becomes the background of `i` when neither style sets a
margin background; then the value of `i` is copied unless `s` already has the
key ("existing set values are kept"). -/
def Style.Inherit (s i : Style) : Style :=
  { rules := fun k =>
      match s.rules k with
      | some v => some v
      | none =>
        if k.isMargin || k.isPadding then none
        else if k = .marginBackgroundKey then
          match i.rules .marginBackgroundKey with
          | some v => some v
          | none => i.rules .backgroundKey
        else i.rules k }

/-- The bubbles `table.Styles`. -/
structure Styles where
  Header : Style
  Cell : Style
  Selected : Style

/-- The lipgloss `Padding(0, 1)`: top and bottom 0, right and left 1. -/
def Style.padding01 (s : Style) : Style :=
  (((s.set .paddingTopKey (.num 0)).set .paddingRightKey (.num 1)).set
    .paddingBottomKey (.num 0)).set .paddingLeftKey (.num 1)

/-- The bubbles `table.DefaultStyles()`:
`Selected: NewStyle().Bold(true).Foreground(Color("212"))`,
`Header: NewStyle().Bold(true).Padding(0, 1)`, `Cell: NewStyle().Padding(0, 1)`. -/
def DefaultStyles : Styles :=
  { Selected := (NewStyle.set .boldKey (.flag true)).set .foregroundKey (.text "212")
    Header := (NewStyle.set .boldKey (.flag true)).padding01
    Cell := NewStyle.padding01 }

/-! ## Configuration, environment and the result of a run -/

/-- The receiver of `Run`.  The style fields hold the lipgloss style that
`ToLipgloss()` gives for the configured style (the `style` package is not part
of `command.go`). -/
structure Options where
  File : String
  Separator : String
  Columns : List String
  Widths : List Int
  Height : Int
  Print : Bool
  Border : String
  BorderStyle : Style
  CellStyle : Style
  HeaderStyle : Style
  SelectedStyle : Style

/-- The bubbles `table.Model` as `table.New` leaves it: the cursor is 0 and the
options `WithColumns`, `WithFocused`, `WithHeight`, `WithRows`, `WithStyles` set
the other fields. -/
structure TableModel where
  cols : List Column
  rows : List Row
  cursor : Int
  focus : Bool
  height : Int
  styles : Styles

/-- The bubbles `table.New` with the five options `Run` passes. -/
def tableNew (columns : List Column) (focused : Bool) (height : Int) (rows : List Row)
    (styles : Styles) : TableModel :=
  { cols := columns, rows := rows, cursor := 0, focus := focused, height := height,
    styles := styles }

/-- The `model` of the table command (its declaration is in table.go, not in
`command.go`), with the two fields `Run` uses; a nil `selected` is the empty
list. -/
structure model where
  table : TableModel
  selected : Row

/-- The two results of `tea.NewProgram(...).Run()`: the final model (`none` for
a nil model) and the error (`none` for nil). -/
structure TeaResult where
  tm : Option model
  err : Option String

/-- Everything `Run` obtains from outside `command.go`. -/
structure Env where
  /-- The `os.Open`: `none` when it fails. -/
  openFile : String → Option Source
  /-- The `stdin.IsEmpty()`. -/
  stdinIsEmpty : Bool
  /-- The `os.Stdin`. -/
  stdin : Source
  /-- The `lipgloss.Width`. -/
  width : String → Int
  /-- The lipgloss table `Render()` for headers, rows, border style, border
  and style function. -/
  render : List String → List Row → Style → String → (Int → Int → Style) → String
  /-- The interactive session `tea.NewProgram(m, tea.WithOutput(os.Stderr)).Run()`. -/
  teaRun : model → TeaResult

/-- What a run leaves behind: the returned error (`none` for nil), the text
written to standard output, and the number of records read from the input. -/
structure Outcome where
  err : Option RunError
  stdout : String
  recordsRead : Nat

/-! ## `Options.Run` -/

/-- Lines 19-31 of `Run`: the reader over the file, or over standard input. -/
def openReader (env : Env) (o : Options) : Except RunError Reader :=
  if o.File ≠ "" then
    match env.openFile o.File with
    | none => .error (.couldNotFindFile o.File)
    | some file => .ok (NewReader file)
  else if env.stdinIsEmpty then .error .noDataProvided
  else .ok (NewReader env.stdin)

/-- The values lines 33-58 of `Run` establish. -/
structure Input where
  comma : Char
  columnNames : List String
  data : List Row

/-- Lines 42-58 of `Run`, on a reader whose `Comma` is set: the column names
are the first record when `len(o.Columns) <= 0` and `o.Columns` otherwise; the
data is `ReadAll()`.  The second component is the number of records read. -/
def readRecords (o : Options) (reader : Reader) : Except RunError Input × Nat :=
  if o.Columns.length ≤ 0 then
    match reader.Read with
    | (.error _, r) => (.error .unableToParseColumns, r.pos)
    | (.ok columnNames, r) =>
      match r.ReadAll with
      | (.error _, n) => (.error .invalidDataProvided, n)
      | (.ok data, n) =>
        (.ok { comma := reader.Comma, columnNames := columnNames, data := data }, n)
  else
    match reader.ReadAll with
    | (.error _, n) => (.error .invalidDataProvided, n)
    | (.ok data, n) =>
      (.ok { comma := reader.Comma, columnNames := o.Columns, data := data }, n)

/-- Lines 33-58 of `Run`: the separator must be one rune (`len(separatorRunes)
!= 1` is the error "separator must be single character"), which becomes the
`Comma` of reader and writer; then the records are read. -/
def readInput (o : Options) (reader : Reader) : Except RunError Input × Nat :=
  match o.Separator.data with
  | [c] => readRecords o { reader with Comma := c }
  | _ => (.error .separatorMustBeSingleCharacter, reader.pos)

/-- Lines 72-78 of `Run`: cell and header inherit from the defaults, the
selected style is the configured one. -/
def resolveStyles (defaultStyles : Styles) (o : Options) : Styles :=
  { Cell := defaultStyles.Cell.Inherit o.CellStyle
    Header := defaultStyles.Header.Inherit o.HeaderStyle
    Selected := o.SelectedStyle }

/-- The three roles a style is resolved for. -/
inductive Role where
  | header | cell | selected
  deriving DecidableEq, Repr

/-- The style of a role in a `table.Styles`. -/
def Styles.ofRole (s : Styles) : Role → Style
  | .header => s.Header
  | .cell => s.Cell
  | .selected => s.Selected

/-- The style the caller configured for a role. -/
def Options.override (o : Options) : Role → Style
  | .header => o.HeaderStyle
  | .cell => o.CellStyle
  | .selected => o.SelectedStyle

/-- The values `Run` holds after line 86. -/
structure Prepared where
  comma : Char
  columnNames : List String
  data : List Row
  columns : List Column
  styles : Styles
  rows : List Row

/-- Lines 59-86 of `Run`: columns, styles, rows. -/
def buildTable (env : Env) (o : Options) (inp : Input) : Except RunError Prepared :=
  let columns := buildColumns env.width o.Widths inp.columnNames
  let styles := resolveStyles DefaultStyles o
  match buildRows columns inp.data with
  | .error e => .error e
  | .ok rows =>
    .ok { comma := inp.comma, columnNames := inp.columnNames, data := inp.data,
          columns := columns, styles := styles, rows := rows }

/-- The style function of the static table: the header style for row 0, the
cell style otherwise. -/
def styleFunc (styles : Styles) (row _col : Int) : Style :=
  if row = 0 then styles.Header else styles.Cell

/-- The model handed to the tea program: `model{table: table}`. -/
def initialModel (o : Options) (p : Prepared) : model :=
  { table := tableNew p.columns true o.Height p.rows p.styles, selected := [] }

/-- Lines 88-132 of `Run`: the static table is printed with `fmt.Println`;
otherwise the session runs, and the selected row of the final model is written
by the csv writer.  The result is the error and the text on standard output. -/
def finish (env : Env) (o : Options) (p : Prepared) : Option RunError × String :=
  if o.Print then
    (none, env.render p.columnNames p.data o.BorderStyle o.Border (styleFunc p.styles)
      ++ String.singleton lfChar)
  else
    let res := env.teaRun (initialModel o p)
    match res.err with
    | some e => (some (.failedToStartTeaProgram e), "")
    | none =>
      match res.tm with
      | none => (some .failedToGetSelection, "")
      | some m =>
        match Writer.Write p.comma m.selected with
        | .error e => (some (.failedToWriteSelectedRow e), "")
        | .ok text => (none, text)

/-- The method `Options.Run`. -/
def Run (env : Env) (o : Options) : Outcome :=
  match openReader env o with
  | .error e => { err := some e, stdout := "", recordsRead := 0 }
  | .ok reader =>
    match readInput o reader with
    | (.error e, n) => { err := some e, stdout := "", recordsRead := n }
    | (.ok inp, n) =>
      match buildTable env o inp with
      | .error e => { err := some e, stdout := "", recordsRead := n }
      | .ok p =>
        match finish env o p with
        | (err, out) => { err := err, stdout := out, recordsRead := n }

/-! ## The interactive table controller -/

/-- Modelled from the spec: the three states of the interactive table
controller (section 4.5).  The `Update` method of `model` (table.go) and the
bubbles table it drives are not among the sources. -/
inductive Phase where
  | browsing | confirmed | cancelled
  deriving DecidableEq, Repr

/-- Modelled from the spec: the input events of the controller (section 4.5);
the `Update` method of `model` that consumes them is not among the sources. -/
inductive Event where
  | moveDown | moveUp | confirm | cancel
  deriving DecidableEq, Repr

/-- Modelled from the spec: the `TableState` of section 3, `{rows, columns,
cursor, viewportHeight, focused, selected}`, with the first row of the visible
window and the state of section 4.5.  The `model` type and the bubbles table
that hold this state are not among the sources. -/
structure TableState where
  rows : List Row
  columns : List Column
  cursor : Int
  viewportHeight : Int
  windowStart : Int
  focused : Bool
  selected : Option Row
  phase : Phase
  deriving DecidableEq, Repr

/-- Modelled from the spec: the last row of the viewport, the window of
`viewportHeight` rows that starts at `windowStart` (glossary, Viewport); the
code that scrolls the viewport is not among the sources. -/
def TableState.windowEnd (s : TableState) : Int :=
  s.windowStart + s.viewportHeight - 1

/-- Modelled from the spec: "clamped to `[0, len(rows)-1]`" (section 4.5); the
code that moves the cursor is not among the sources. -/
def clamp (v low high : Int) : Int :=
  if v < low then low else if v > high then high else v

/-- Modelled from the spec: "if cursor moves outside the current viewport
window, the window scrolls by the minimum amount needed to keep cursor
visible" (section 4.5); the code that scrolls is not among the sources. -/
def TableState.scroll (s : TableState) : TableState :=
  if s.cursor < s.windowStart then { s with windowStart := s.cursor }
  else if s.cursor > s.windowEnd then
    { s with windowStart := s.cursor - (s.viewportHeight - 1) }
  else s

/-- Modelled from the spec: the transitions of section 4.5 from `Browsing`
(move-down and move-up change the cursor by one, clamped, and scroll; confirm
copies the row at the cursor into `selected`; cancel leaves `selected` unset);
the terminal states take no event.  The `Update` method of `model` is not among
the sources. -/
def TableState.step (s : TableState) (e : Event) : TableState :=
  match s.phase with
  | .browsing =>
    match e with
    | .moveDown =>
      TableState.scroll { s with cursor := clamp (s.cursor + 1) 0 ((s.rows.length : Int) - 1) }
    | .moveUp =>
      TableState.scroll { s with cursor := clamp (s.cursor - 1) 0 ((s.rows.length : Int) - 1) }
    | .confirm => { s with selected := s.rows.get? s.cursor.toNat, phase := .confirmed }
    | .cancel => { s with phase := .cancelled }
  | _ => s

/-- Modelled from the spec: the controller after a sequence of events; the
event loop of the tea program is not among the sources. -/
def TableState.run (s : TableState) (events : List Event) : TableState :=
  events.foldl TableState.step s

/-- Modelled from the spec: the initial state of section 4.5 (`Browsing`, the
viewport starting at row 0, nothing selected) for the table `Run` constructs,
whose cursor is 0, which is focused, and whose height is `o.Height`.  The
`Init` method of `model` is not among the sources. -/
def TableState.ofTable (t : TableModel) : TableState :=
  { rows := t.rows, columns := t.cols, cursor := t.cursor, viewportHeight := t.height,
    windowStart := 0, focused := t.focus, selected := none, phase := .browsing }

/-! ## Sample inputs -/

/-- An environment over one input stream, the same on the file and on standard
input, with the number of characters as display width and a renderer that
joins the cells with blanks. -/
def sampleEnv (records : List Row) (session : model → TeaResult) : Env :=
  { openFile := fun _ => some (fun _ => { records := records, malformed := false })
    stdinIsEmpty := false
    stdin := fun _ => { records := records, malformed := false }
    width := fun s => (s.length : Int)
    render := fun headers rows _ _ _ =>
      String.intercalate "\n" ((headers :: rows).map (String.intercalate " "))
    teaRun := session }

/-- A configuration reading standard input with the given separator, columns
and mode, height 10 and no style set. -/
def sampleOptions (separator : String) (columns : List String) (print : Bool) : Options :=
  { File := "", Separator := separator, Columns := columns, Widths := [], Height := 10,
    Print := print, Border := "rounded", BorderStyle := NewStyle, CellStyle := NewStyle,
    HeaderStyle := NewStyle, SelectedStyle := NewStyle }

/-- A session in which the user confirms the row `row`. -/
def confirmSession (row : Row) (m : model) : TeaResult :=
  { tm := some { m with selected := row }, err := none }

/-- A session the user leaves without confirming: the final model is the
initial one, whose `selected` is nil. -/
def cancelSession (m : model) : TeaResult :=
  { tm := some m, err := none }

/-- An options value with the given viewport height. -/
def sampleOptionsHeight (height : Int) : Options :=
  { sampleOptions "," [] false with Height := height }

/-- The prepared values of a run over the given rows, with one column. -/
def samplePrepared (rows : List Row) : Prepared :=
  { comma := Char.ofNat 44, columnNames := ["c"], data := rows,
    columns := [{ Title := "c", Width := 1 }], styles := DefaultStyles, rows := rows }

/-! ## Lemmas on the column model and the row store -/

theorem buildColumnsFrom_length (width : String → Int) (widths : List Int) :
    ∀ (titles : List String) (i : Nat),
      (buildColumnsFrom width widths i titles).length = titles.length := by
  intro titles
  induction titles with
  | nil => intro i; rfl
  | cons t rest ih => intro i; simp [buildColumnsFrom, ih]

theorem buildColumns_length (width : String → Int) (widths : List Int)
    (titles : List String) : (buildColumns width widths titles).length = titles.length :=
  buildColumnsFrom_length width widths titles 0

theorem buildRows_ok_of_fit (columns : List Column) :
    ∀ data : List Row, (∀ row ∈ data, row.length ≤ columns.length) →
      buildRows columns data = .ok data := by
  intro data
  induction data with
  | nil => intro _; rfl
  | cons row rest ih =>
    intro h
    have hrow : ¬ row.length > columns.length := by
      have := h row (List.mem_cons_self _ _)
      omega
    have hrest := ih (fun r hr => h r (List.mem_cons_of_mem _ hr))
    simp [buildRows, hrow, hrest]

theorem buildRows_error_of_overlong (columns : List Column) :
    ∀ data : List Row, (∃ row ∈ data, row.length > columns.length) →
      buildRows columns data = .error .invalidNumberOfColumns := by
  intro data
  induction data with
  | nil => intro h; obtain ⟨_, hmem, _⟩ := h; cases hmem
  | cons row rest ih =>
    intro h
    by_cases hrow : row.length > columns.length
    · simp [buildRows, hrow]
    · have hrest : ∃ r ∈ rest, r.length > columns.length := by
        obtain ⟨r, hmem, hr⟩ := h
        rcases List.mem_cons.mp hmem with heq | hmem
        · subst heq; exact absurd hr hrow
        · exact ⟨r, hmem, hr⟩
      simp [buildRows, hrow, ih hrest]

theorem buildRows_cases (columns : List Column) (data : List Row) :
    ((∀ row ∈ data, row.length ≤ columns.length) ∧ buildRows columns data = .ok data) ∨
    ((∃ row ∈ data, row.length > columns.length) ∧
      buildRows columns data = .error .invalidNumberOfColumns) := by
  by_cases h : ∃ row ∈ data, row.length > columns.length
  · exact Or.inr ⟨h, buildRows_error_of_overlong columns data h⟩
  · have hfit : ∀ row ∈ data, row.length ≤ columns.length := by
      intro row hmem
      by_contra hlt
      exact h ⟨row, hmem, by omega⟩
    exact Or.inl ⟨hfit, buildRows_ok_of_fit columns data hfit⟩

theorem Run_eq_of_read (env : Env) (o : Options) (reader : Reader) (inp : Input) (n : Nat)
    (hopen : openReader env o = .ok reader) (hread : readInput o reader = (.ok inp, n)) :
    Run env o =
      match buildTable env o inp with
      | .error e => { err := some e, stdout := "", recordsRead := n }
      | .ok p => { err := (finish env o p).1, stdout := (finish env o p).2, recordsRead := n } := by
  simp only [Run, hopen, hread]

theorem buildTable_cases (env : Env) (o : Options) (inp : Input) :
    ((∀ row ∈ inp.data, row.length ≤ inp.columnNames.length) ∧
      buildTable env o inp = .ok
        { comma := inp.comma, columnNames := inp.columnNames, data := inp.data,
          columns := buildColumns env.width o.Widths inp.columnNames,
          styles := resolveStyles DefaultStyles o, rows := inp.data }) ∨
    ((∃ row ∈ inp.data, row.length > inp.columnNames.length) ∧
      buildTable env o inp = .error .invalidNumberOfColumns) := by
  have hlen := buildColumns_length env.width o.Widths inp.columnNames
  rcases buildRows_cases (buildColumns env.width o.Widths inp.columnNames) inp.data with
    ⟨hfit, hok⟩ | ⟨hover, herr⟩
  · left
    refine ⟨fun row hmem => by have := hfit row hmem; omega, ?_⟩
    simp [buildTable, hok]
  · right
    refine ⟨?_, ?_⟩
    · obtain ⟨row, hmem, hr⟩ := hover
      exact ⟨row, hmem, by omega⟩
    · simp [buildTable, herr]

theorem finish_err_ne_columns (env : Env) (o : Options) (p : Prepared) :
    (finish env o p).1 ≠ some .invalidNumberOfColumns := by
  unfold finish
  split
  · simp
  · dsimp only
    split
    · simp
    · split
      · simp
      · split <;> simp

/-! ## Claims on the row store -/

/-- Claim C1.  The row loop of `Run` fails exactly when some record has more
cells than there are columns, wherever that record stands in the list; and for
every run that has read its input, static or interactive, `Run` returns
"invalid number of columns" exactly when the data holds such a record. -/
theorem C1_construction_fails_iff_overlong (env : Env) (o : Options) (reader : Reader)
    (inp : Input) (n : Nat) (hopen : openReader env o = .ok reader)
    (hread : readInput o reader = (.ok inp, n)) :
    (∀ (columns : List Column) (data : List Row),
        (∃ e, buildRows columns data = .error e) ↔
          ∃ row ∈ data, row.length > columns.length) ∧
    (∀ (columns : List Column) (before after : List Row) (row : Row),
        row.length > columns.length →
          buildRows columns (before ++ row :: after) = .error .invalidNumberOfColumns) ∧
    ((Run env o).err = some .invalidNumberOfColumns ↔
        ∃ row ∈ inp.data, row.length > inp.columnNames.length) := by
  refine ⟨?_, ?_, ?_⟩
  · intro columns data
    rcases buildRows_cases columns data with ⟨hfit, hok⟩ | ⟨hover, herr⟩
    · constructor
      · rintro ⟨e, he⟩
        rw [hok] at he
        cases he
      · rintro ⟨row, hmem, hr⟩
        have := hfit row hmem
        omega
    · exact ⟨fun _ => hover, fun _ => ⟨_, herr⟩⟩
  · intro columns before after row hrow
    exact buildRows_error_of_overlong columns _ ⟨row, by simp, hrow⟩
  · rw [Run_eq_of_read env o reader inp n hopen hread]
    rcases buildTable_cases env o inp with ⟨hfit, hok⟩ | ⟨hover, herr⟩
    · rw [hok]
      constructor
      · intro h
        exact absurd h (finish_err_ne_columns env o _)
      · rintro ⟨row, hmem, hr⟩
        have := hfit row hmem
        omega
    · rw [herr]
      exact ⟨fun _ => hover, fun _ => rfl⟩

/-- Witness of C1: two columns and records of three cells, in static mode. -/
theorem C1_construction_fails_witness :
    (Run (sampleEnv [["1", "2", "3"], ["4", "5", "6"]] cancelSession)
        (sampleOptions "," ["x", "y"] true)).err = some .invalidNumberOfColumns :=
  (C1_construction_fails_iff_overlong
    (sampleEnv [["1", "2", "3"], ["4", "5", "6"]] cancelSession)
    (sampleOptions "," ["x", "y"] true)
    (NewReader (fun _ => { records := [["1", "2", "3"], ["4", "5", "6"]], malformed := false }))
    { comma := Char.ofNat 44, columnNames := ["x", "y"],
      data := [["1", "2", "3"], ["4", "5", "6"]] }
    2 rfl rfl).2.2.mpr ⟨["1", "2", "3"], by simp, by decide⟩

/-- Claim C8.  When every record has at most as many cells as there are
columns, the row loop of `Run` returns the record list itself, short records
included, and the table handed to the session has exactly these rows. -/
theorem C8_rows_stored_as_is (env : Env) (o : Options) (inp : Input)
    (hfit : ∀ row ∈ inp.data, row.length ≤ inp.columnNames.length) :
    buildRows (buildColumns env.width o.Widths inp.columnNames) inp.data = .ok inp.data ∧
    (∃ p, buildTable env o inp = .ok p ∧ p.rows = inp.data ∧ p.data = inp.data ∧
      (initialModel o p).table.rows = inp.data) ∧
    (∀ (columns : List Column) (data : List Row),
        (∀ row ∈ data, row.length ≤ columns.length) → buildRows columns data = .ok data) := by
  refine ⟨?_, ?_, fun columns data h => buildRows_ok_of_fit columns data h⟩
  · apply buildRows_ok_of_fit
    intro row hmem
    rw [buildColumns_length]
    exact hfit row hmem
  · rcases buildTable_cases env o inp with ⟨_, hok⟩ | ⟨⟨row, hmem, hr⟩, _⟩
    · exact ⟨_, hok, rfl, rfl, rfl⟩
    · have := hfit row hmem
      omega

/-- Witness of C8: three columns, records of two cells and of one cell. -/
theorem C8_rows_stored_as_is_witness :
    buildRows (buildColumns (fun s => (s.length : Int)) [] ["x", "y", "z"])
      [["1", "2"], ["3"]] = .ok [["1", "2"], ["3"]] :=
  (C8_rows_stored_as_is (sampleEnv [] cancelSession) (sampleOptions "," ["x", "y", "z"] false)
    { comma := Char.ofNat 44, columnNames := ["x", "y", "z"], data := [["1", "2"], ["3"]] }
    (by decide)).1

theorem exists_overlong_of_firstOverlong (columns : List Column) :
    ∀ (data : List Row) (i : Nat), firstOverlong columns data = some i →
      ∃ row ∈ data, row.length > columns.length := by
  intro data
  induction data with
  | nil => intro i h; simp [firstOverlong] at h
  | cons row rest ih =>
    intro i h
    by_cases hrow : row.length > columns.length
    · exact ⟨row, List.mem_cons_self _ _, hrow⟩
    · simp only [firstOverlong, hrow, if_false, Option.map_eq_some'] at h
      obtain ⟨j, hj, _⟩ := h
      obtain ⟨r, hmem, hr⟩ := ih j hj
      exact ⟨r, List.mem_cons_of_mem _ hmem, hr⟩

/-- Claim C9, as stated, fails.  With one column, the first overlong record is
at index 0 in one record list and at index 1 in the other, and the row loop
returns the same error for both; and on two inputs whose first overlong record
is at index 1 and at index 2, `Run` returns the same error, "invalid data
provided", which the field count rule of the csv reader raises before the row
loop is reached. -/
theorem C9_error_names_no_index :
    ¬ (∀ (columns : List Column) (dataA dataB : List Row) (i j : Nat),
        firstOverlong columns dataA = some i → firstOverlong columns dataB = some j →
        i ≠ j → buildRows columns dataA ≠ buildRows columns dataB) ∧
    (firstOverlong [{ Title := "c", Width := 1 }] [["a"], ["x", "y"]] = some 1 ∧
     firstOverlong [{ Title := "c", Width := 1 }] [["a"], ["b"], ["x", "y"]] = some 2 ∧
     (Run (sampleEnv [["a"], ["x", "y"]] cancelSession) (sampleOptions "," ["c"] false)).err =
        some .invalidDataProvided ∧
     (Run (sampleEnv [["a"], ["b"], ["x", "y"]] cancelSession)
        (sampleOptions "," ["c"] false)).err = some .invalidDataProvided) := by
  refine ⟨?_, by decide, by decide, by decide, by decide⟩
  intro h
  exact h [{ Title := "c", Width := 1 }] [["x", "y"], ["z"]] [["z"], ["x", "y"]] 0 1
    (by decide) (by decide) (by decide) (by decide)

/-- Claim C9, amended.  When the data holds a record with more cells than
there are columns, `Run` returns the fixed error "invalid number of columns"
and writes nothing; the row loop returns that same error whatever the index of
the first such record. -/
theorem C9_error_is_fixed (env : Env) (o : Options) (reader : Reader) (inp : Input) (n : Nat)
    (hopen : openReader env o = .ok reader) (hread : readInput o reader = (.ok inp, n))
    (hover : ∃ row ∈ inp.data, row.length > inp.columnNames.length) :
    ((Run env o).err = some .invalidNumberOfColumns ∧ (Run env o).stdout = "") ∧
    (∀ (columns : List Column) (data : List Row) (i : Nat),
        firstOverlong columns data = some i →
          buildRows columns data = .error .invalidNumberOfColumns) := by
  constructor
  · rw [Run_eq_of_read env o reader inp n hopen hread]
    rcases buildTable_cases env o inp with ⟨hfit, _⟩ | ⟨_, herr⟩
    · obtain ⟨row, hmem, hr⟩ := hover
      have := hfit row hmem
      omega
    · rw [herr]
      exact ⟨rfl, rfl⟩
  · intro columns data i hi
    exact buildRows_error_of_overlong columns data
      (exists_overlong_of_firstOverlong columns data i hi)

/-- Witness of the amended C9: one column and records of two cells, in
interactive mode. -/
theorem C9_error_is_fixed_witness :
    (Run (sampleEnv [["x", "y"], ["z", "w"]] cancelSession)
        (sampleOptions "," ["c"] false)).err = some .invalidNumberOfColumns ∧
    (Run (sampleEnv [["x", "y"], ["z", "w"]] cancelSession)
        (sampleOptions "," ["c"] false)).stdout = "" :=
  (C9_error_is_fixed (sampleEnv [["x", "y"], ["z", "w"]] cancelSession)
    (sampleOptions "," ["c"] false)
    (NewReader (fun _ => { records := [["x", "y"], ["z", "w"]], malformed := false }))
    { comma := Char.ofNat 44, columnNames := ["c"], data := [["x", "y"], ["z", "w"]] }
    2 rfl rfl ⟨["x", "y"], by simp, by decide⟩).1

/-! ## Claims on the column model -/

theorem buildColumnsFrom_get? (width : String → Int) (widths : List Int) :
    ∀ (titles : List String) (i j : Nat),
      (buildColumnsFrom width widths i titles).get? j =
        (titles.get? j).map (fun t =>
          { Title := t
            Width := match widths.get? (i + j) with
              | some w => w
              | none => width t }) := by
  intro titles
  induction titles with
  | nil => intro i j; simp [buildColumnsFrom]
  | cons t rest ih =>
    intro i j
    cases j with
    | zero => simp [buildColumnsFrom]
    | succ j =>
      simp only [buildColumnsFrom, List.get?_cons_succ, ih]
      have : i + 1 + j = i + (j + 1) := by omega
      rw [this]

theorem buildColumns_get? (width : String → Int) (widths : List Int) (titles : List String)
    (j : Nat) :
    (buildColumns width widths titles).get? j =
      (titles.get? j).map (fun t =>
        { Title := t
          Width := match widths.get? j with
            | some w => w
            | none => width t }) := by
  simp only [buildColumns, buildColumnsFrom_get?, Nat.zero_add]

theorem buildColumnsFrom_titles (width : String → Int) (widths : List Int) :
    ∀ (titles : List String) (i : Nat),
      (buildColumnsFrom width widths i titles).map Column.Title = titles := by
  intro titles
  induction titles with
  | nil => intro i; rfl
  | cons t rest ih => intro i; simp [buildColumnsFrom, ih]

theorem buildColumns_take (width : String → Int) (widths : List Int) (titles : List String) :
    buildColumns width (widths.take titles.length) titles = buildColumns width widths titles := by
  apply List.ext_get?
  intro j
  simp only [buildColumns_get?]
  cases hj : titles.get? j with
  | none => rfl
  | some t =>
    have hlt : j < titles.length := by
      by_contra hge
      have := List.get?_eq_none.mpr (Nat.le_of_not_lt hge)
      rw [this] at hj
      cases hj
    have hw : (List.take titles.length widths).get? j = widths.get? j := by
      simp [List.getElem?_take, hlt]
    simp only [Option.map_some', hw]

/-- Claim C4.  The column slice `Run` builds has one column per title, in title
order and with that title; the column of index `i` has width `o.Widths[i]` when
the index is within `o.Widths` and the display width `lipgloss.Width(title)`
otherwise; with no widths every width is the display width of the title; and
the widths at indexes beyond the last title play no part.  The display width
is the function `lipgloss.Width` of the environment. -/
theorem C4_column_model (env : Env) (o : Options) (inp : Input) :
    (buildColumns env.width o.Widths inp.columnNames).length = inp.columnNames.length ∧
    (buildColumns env.width o.Widths inp.columnNames).map Column.Title = inp.columnNames ∧
    (∀ (i : Nat) (title : String) (w : Int),
        inp.columnNames.get? i = some title → o.Widths.get? i = some w →
        (buildColumns env.width o.Widths inp.columnNames).get? i =
          some { Title := title, Width := w }) ∧
    (∀ (i : Nat) (title : String),
        inp.columnNames.get? i = some title → o.Widths.length ≤ i →
        (buildColumns env.width o.Widths inp.columnNames).get? i =
          some { Title := title, Width := env.width title }) ∧
    buildColumns env.width [] inp.columnNames =
      inp.columnNames.map (fun title => { Title := title, Width := env.width title }) ∧
    buildColumns env.width (o.Widths.take inp.columnNames.length) inp.columnNames =
      buildColumns env.width o.Widths inp.columnNames ∧
    (∀ p, buildTable env o inp = .ok p →
        p.columns = buildColumns env.width o.Widths inp.columnNames ∧
        (initialModel o p).table.cols = buildColumns env.width o.Widths inp.columnNames) := by
  refine ⟨buildColumns_length _ _ _, buildColumnsFrom_titles _ _ _ 0, ?_, ?_, ?_,
    buildColumns_take _ _ _, ?_⟩
  · intro i title w ht hw
    rw [buildColumns_get?, ht, Option.map_some', hw]
  · intro i title ht hle
    rw [buildColumns_get?, ht, Option.map_some', List.get?_eq_none.mpr hle]
  · apply List.ext_get?
    intro j
    rw [buildColumns_get?]
    simp only [List.get?_eq_getElem?, List.getElem?_map]
    cases inp.columnNames[j]? <;> simp
  · intro p hp
    rcases buildTable_cases env o inp with ⟨_, hok⟩ | ⟨_, herr⟩
    · rw [hok] at hp
      cases hp
      exact ⟨rfl, rfl⟩
    · rw [herr] at hp
      cases hp

/-- A check of C4 on three titles and two widths, with the number of
characters as display width. -/
theorem C4_column_model_witness :
    buildColumns (fun s => (s.length : Int)) [7, 9] ["name", "val", "note"] =
      [{ Title := "name", Width := 7 }, { Title := "val", Width := 9 },
       { Title := "note", Width := 4 }] ∧
    (buildColumns (fun s => (s.length : Int)) [7, 9] ["name", "val", "note"]).length = 3 :=
  ⟨by decide,
   (C4_column_model (sampleEnv [] cancelSession)
      { sampleOptions "," [] false with Widths := [7, 9] }
      { comma := Char.ofNat 44, columnNames := ["name", "val", "note"], data := [] }).1⟩

/-! ## Lemmas on the csv reader -/

theorem checkFields_uniform (n : Nat) (fieldsPerRecord : Int) (dst : Row)
    (hf : fieldsPerRecord = 0 ∨ fieldsPerRecord = (n : Int)) (hd : dst.length = n) :
    checkFields fieldsPerRecord dst = .ok (n : Int) := by
  unfold checkFields
  rcases hf with h0 | hn
  · subst h0
    simp [hd]
  · subst hn
    by_cases hpos : (0 : Int) < (n : Int)
    · simp [hpos, hd]
    · have hz : (n : Int) = 0 := by omega
      simp [hd, hz]

theorem readAllLoop_uniform (n : Nat) :
    ∀ (recs : List Row) (fieldsPerRecord : Int),
      (fieldsPerRecord = 0 ∨ fieldsPerRecord = (n : Int)) → (∀ r ∈ recs, r.length = n) →
      readAllLoop false fieldsPerRecord recs = (.ok recs, recs.length) := by
  intro recs
  induction recs with
  | nil => intro f _ _; rfl
  | cons dst rest ih =>
    intro f hf hall
    have hd : dst.length = n := hall dst (List.mem_cons_self _ _)
    have hrest := ih (n : Int) (Or.inr rfl) (fun r hr => hall r (List.mem_cons_of_mem _ hr))
    simp [readAllLoop, checkFields_uniform n f dst hf hd, hrest]

theorem readAllLoop_ok (malformed : Bool) :
    ∀ (recs : List Row) (fieldsPerRecord : Int) (data : List Row) (k : Nat),
      readAllLoop malformed fieldsPerRecord recs = (.ok data, k) →
      data = recs ∧ malformed = false ∧ k = recs.length := by
  intro recs
  induction recs with
  | nil =>
    intro f data k h
    cases malformed <;> simp [readAllLoop] at h
    obtain ⟨h1, h2⟩ := h
    exact ⟨h1, rfl, h2.symm⟩
  | cons dst rest ih =>
    intro f data k h
    simp only [readAllLoop] at h
    cases hc : checkFields f dst with
    | error e => rw [hc] at h; simp at h
    | ok m =>
      rw [hc] at h
      dsimp only at h
      cases hl : readAllLoop malformed m rest with
      | mk res j =>
        rw [hl] at h
        cases res with
        | error e => simp at h
        | ok records =>
          simp only [Prod.mk.injEq, Except.ok.injEq] at h
          obtain ⟨h1, h2⟩ := h
          obtain ⟨hr, hm, hj⟩ := ih m records j hl
          subst h1 h2 hr hj
          exact ⟨rfl, hm, rfl⟩

theorem openReader_ok (env : Env) (o : Options) (reader : Reader)
    (hopen : openReader env o = .ok reader) :
    reader.pos = 0 ∧ reader.FieldsPerRecord = 0 := by
  unfold openReader at hopen
  split at hopen
  · split at hopen
    · cases hopen
    · cases hopen; exact ⟨rfl, rfl⟩
  · split at hopen
    · cases hopen
    · cases hopen; exact ⟨rfl, rfl⟩

theorem Read_at_start (reader : Reader) (hpos : reader.pos = 0)
    (hfpr : reader.FieldsPerRecord = 0) :
    reader.Read =
      if !validDelim reader.Comma then (.error .errInvalidDelim, reader)
      else
        match (reader.src reader.Comma).records with
        | [] => (.error (if (reader.src reader.Comma).malformed then .parseError else .eof),
            reader)
        | dst :: _ => (.ok dst, { reader with pos := 1, FieldsPerRecord := (dst.length : Int) }) := by
  unfold Reader.Read
  split
  · rfl
  · rw [hpos, hfpr]
    cases (reader.src reader.Comma).records with
    | nil => rfl
    | cons dst rest => simp [checkFields]

theorem ReadAll_ok (r : Reader) (data : List Row) (n : Nat)
    (h : r.ReadAll = (.ok data, n)) :
    validDelim r.Comma = true ∧ (r.src r.Comma).malformed = false ∧
      data = (r.src r.Comma).records.drop r.pos := by
  unfold Reader.ReadAll at h
  split at h
  · simp at h
  · rename_i hv
    cases hl : readAllLoop (r.src r.Comma).malformed r.FieldsPerRecord
        ((r.src r.Comma).records.drop r.pos) with
    | mk res k =>
      rw [hl] at h
      simp only [Prod.mk.injEq] at h
      obtain ⟨h1, _⟩ := h
      subst h1
      obtain ⟨hd, hm, _⟩ := readAllLoop_ok _ _ _ _ _ hl
      exact ⟨by simpa using hv, hm, hd⟩

theorem ReadAll_uniform (r : Reader) (len : Nat) (hv : validDelim r.Comma = true)
    (hm : (r.src r.Comma).malformed = false)
    (hf : r.FieldsPerRecord = 0 ∨ r.FieldsPerRecord = (len : Int))
    (hall : ∀ rec ∈ (r.src r.Comma).records.drop r.pos, rec.length = len) :
    r.ReadAll = (.ok ((r.src r.Comma).records.drop r.pos),
      r.pos + ((r.src r.Comma).records.drop r.pos).length) := by
  unfold Reader.ReadAll
  rw [hm, readAllLoop_uniform len _ _ hf hall]
  simp [hv]

theorem readInput_bad_separator (o : Options) (reader : Reader)
    (h : o.Separator.length ≠ 1) :
    readInput o reader = (.error .separatorMustBeSingleCharacter, reader.pos) := by
  unfold readInput
  split
  · rename_i c hc
    exfalso
    apply h
    show o.Separator.data.length = 1
    rw [hc]
    rfl
  · rfl

theorem readInput_good_separator (o : Options) (reader : Reader) (c : Char)
    (hc : o.Separator.data = [c]) :
    readInput o reader = readRecords o { reader with Comma := c } := by
  unfold readInput
  rw [hc]

theorem separator_length_one (o : Options) (h : o.Separator.length = 1) :
    ∃ c, o.Separator.data = [c] := by
  have h2 : o.Separator.data.length = 1 := h
  exact List.length_eq_one.mp h2

theorem readRecords_err_ne_separator (o : Options) (reader : Reader) :
    (readRecords o reader).1 ≠ .error .separatorMustBeSingleCharacter := by
  unfold readRecords
  split
  · split
    · simp
    · split <;> simp
  · split <;> simp

theorem finish_err_ne_separator (env : Env) (o : Options) (p : Prepared) :
    (finish env o p).1 ≠ some .separatorMustBeSingleCharacter := by
  unfold finish
  split
  · simp
  · dsimp only
    split
    · simp
    · split
      · simp
      · split <;> simp

/-- On a run whose reader has been opened, `Run` returns the separator error
exactly when the separator is not one character long, and then no record has
been read and nothing has been written. -/
theorem Run_separator_of_open (env : Env) (o : Options) (reader : Reader)
    (hopen : openReader env o = .ok reader) :
    ((Run env o).err = some .separatorMustBeSingleCharacter ↔ o.Separator.length ≠ 1) ∧
    ((Run env o).err = some .separatorMustBeSingleCharacter →
      (Run env o).recordsRead = 0 ∧ (Run env o).stdout = "") := by
  have hpos := (openReader_ok env o reader hopen).1
  by_cases hlen : o.Separator.length = 1
  · obtain ⟨c, hc⟩ := separator_length_one o hlen
    have hne : (Run env o).err ≠ some .separatorMustBeSingleCharacter := by
      have hr := readInput_good_separator o reader c hc
      have hrr := readRecords_err_ne_separator o { reader with Comma := c }
      cases hres : readRecords o { reader with Comma := c } with
      | mk res n =>
        rw [hres] at hr hrr
        cases res with
        | error e =>
          simp only [Run, hopen, hr]
          intro h
          apply hrr
          simp only [Option.some.injEq] at h
          rw [h]
        | ok inp =>
          rw [Run_eq_of_read env o reader inp n hopen hr]
          rcases buildTable_cases env o inp with ⟨_, hok⟩ | ⟨_, herr⟩
          · rw [hok]
            exact finish_err_ne_separator env o _
          · rw [herr]
            simp
    exact ⟨⟨fun h => absurd h hne, fun h => absurd hlen h⟩, fun h => absurd h hne⟩
  · have hrun : Run env o =
        { err := some .separatorMustBeSingleCharacter, stdout := "", recordsRead := 0 } := by
      simp only [Run, hopen, readInput_bad_separator o reader hlen, hpos]
    rw [hrun]
    exact ⟨⟨fun _ => hlen, fun _ => rfl⟩, fun _ => ⟨rfl, rfl⟩⟩

theorem openReader_error (env : Env) (o : Options) (e : RunError)
    (h : openReader env o = .error e) :
    (e = .couldNotFindFile o.File ∨ e = .noDataProvided) ∧
    Run env o = { err := some e, stdout := "", recordsRead := 0 } := by
  refine ⟨?_, by simp only [Run, h]⟩
  unfold openReader at h
  split at h
  · split at h
    · cases h; exact Or.inl rfl
    · cases h
  · split at h
    · cases h; exact Or.inr rfl
    · cases h

/-- Claim C5, as stated, fails.  With the two-character separator `::`, a run
whose standard input is empty returns "no data provided", and a run whose file
cannot be opened returns "could not find file at path ...": neither returns the
separator error, although the separator is not one character long. -/
theorem C5_separator_error_needs_input :
    (sampleOptions "::" [] true).Separator.length ≠ 1 ∧
    ((Run { sampleEnv [["a", "1"]] cancelSession with stdinIsEmpty := true }
        (sampleOptions "::" [] true)).err = some .noDataProvided ∧
     (Run { sampleEnv [["a", "1"]] cancelSession with stdinIsEmpty := true }
        (sampleOptions "::" [] true)).err ≠ some .separatorMustBeSingleCharacter) ∧
    ((Run { sampleEnv [["a", "1"]] cancelSession with openFile := fun _ => none }
        { sampleOptions "::" [] true with File := "data.csv" }).err =
        some (.couldNotFindFile "data.csv") ∧
     (Run { sampleEnv [["a", "1"]] cancelSession with openFile := fun _ => none }
        { sampleOptions "::" [] true with File := "data.csv" }).err ≠
        some .separatorMustBeSingleCharacter) ∧
    ¬ (∀ (env : Env) (o : Options),
        (Run env o).err = some .separatorMustBeSingleCharacter ↔ o.Separator.length ≠ 1) := by
  refine ⟨by decide, ⟨by decide, by decide⟩, ⟨by decide, by decide⟩, ?_⟩
  intro h
  have h2 := (h { sampleEnv [["a", "1"]] cancelSession with stdinIsEmpty := true }
    (sampleOptions "::" [] true)).mpr (by decide)
  revert h2
  decide

/-- Claim C5, amended.  `Run` returns the error "separator must be single
character" exactly when the input source is available (the file opens, or no
file is named and standard input is not empty) and the separator is not one
character long, counted in characters; so on every run whose input source is
available, the separator error is returned exactly when the separator is not
one character long.  When the input source is not available `Run` returns the
file error or the no-data error, whatever the separator.  Whenever `Run`
returns the separator error, no record has been read and nothing has been
written. -/
theorem C5_separator_single_character (env : Env) (o : Options) :
    ((Run env o).err = some .separatorMustBeSingleCharacter ↔
      (∃ reader, openReader env o = .ok reader) ∧ o.Separator.length ≠ 1) ∧
    (∀ reader, openReader env o = .ok reader →
      ((Run env o).err = some .separatorMustBeSingleCharacter ↔ o.Separator.length ≠ 1)) ∧
    ((∀ reader, openReader env o ≠ .ok reader) →
      ((Run env o).err = some (.couldNotFindFile o.File) ∨
        (Run env o).err = some .noDataProvided) ∧ (Run env o).recordsRead = 0) ∧
    ((Run env o).err = some .separatorMustBeSingleCharacter →
      (Run env o).recordsRead = 0 ∧ (Run env o).stdout = "") := by
  cases hopen : openReader env o with
  | ok reader =>
    have h := Run_separator_of_open env o reader hopen
    refine ⟨⟨fun he => ⟨⟨reader, rfl⟩, h.1.mp he⟩, fun hc => h.1.mpr hc.2⟩, fun _ _ => h.1,
      fun hno => absurd rfl (hno reader), h.2⟩
  | error e =>
    obtain ⟨hcases, hrun⟩ := openReader_error env o e hopen
    have hne : (Run env o).err ≠ some .separatorMustBeSingleCharacter := by
      rw [hrun]
      rcases hcases with he | he <;> subst he <;> simp
    refine ⟨⟨fun he => absurd he hne, ?_⟩, ?_, ?_, fun he => absurd he hne⟩
    · rintro ⟨⟨reader, hr⟩, _⟩
      cases hr
    · intro reader hr
      cases hr
    · intro _
      rw [hrun]
      rcases hcases with he | he
      · exact ⟨Or.inl (by rw [he]), rfl⟩
      · exact ⟨Or.inr (by rw [he]), rfl⟩

/-- Witness of the amended C5: on available input the separator `::` is
rejected before any record is read, and the one-character separator `é`, two
bytes long, is not rejected. -/
theorem C5_separator_single_character_witness :
    ((Run (sampleEnv [["a", "1"], ["b", "2"]] cancelSession)
        (sampleOptions "::" [] true)).err = some .separatorMustBeSingleCharacter ∧
     (Run (sampleEnv [["a", "1"], ["b", "2"]] cancelSession)
        (sampleOptions "::" [] true)).recordsRead = 0) ∧
    ("é".utf8ByteSize = 2 ∧
     (Run (sampleEnv [["a", "1"], ["b", "2"]] cancelSession)
        (sampleOptions "é" [] true)).err ≠ some .separatorMustBeSingleCharacter) :=
  ⟨⟨((C5_separator_single_character (sampleEnv [["a", "1"], ["b", "2"]] cancelSession)
        (sampleOptions "::" [] true)).2.1
        (NewReader (fun _ => { records := [["a", "1"], ["b", "2"]], malformed := false }))
        rfl).mpr (by decide),
     ((C5_separator_single_character (sampleEnv [["a", "1"], ["b", "2"]] cancelSession)
        (sampleOptions "::" [] true)).2.2.2 (by decide)).1⟩,
   by decide,
   fun h => absurd (((C5_separator_single_character
        (sampleEnv [["a", "1"], ["b", "2"]] cancelSession) (sampleOptions "é" [] true)).2.1
        (NewReader (fun _ => { records := [["a", "1"], ["b", "2"]], malformed := false }))
        rfl).mp h) (by decide)⟩

/-! ## Claim on the header record -/

theorem readRecords_header_empty (o : Options) (r : Reader) (hcols : o.Columns = [])
    (hpos : r.pos = 0) (hfpr : r.FieldsPerRecord = 0)
    (hrec : (r.src r.Comma).records = []) :
    readRecords o r = (.error .unableToParseColumns, 0) := by
  unfold readRecords
  rw [Read_at_start r hpos hfpr, hrec, hcols]
  by_cases hv : validDelim r.Comma = true <;> simp [hv, hpos]

theorem readRecords_header_ok (o : Options) (r : Reader) (hcols : o.Columns = [])
    (hpos : r.pos = 0) (hfpr : r.FieldsPerRecord = 0) (inp : Input) (n : Nat)
    (h : readRecords o r = (.ok inp, n)) :
    (r.src r.Comma).records = inp.columnNames :: inp.data ∧ inp.comma = r.Comma := by
  unfold readRecords at h
  rw [Read_at_start r hpos hfpr, hcols] at h
  by_cases hv : validDelim r.Comma = true
  · cases hrec : (r.src r.Comma).records with
    | nil => simp [hv, hrec] at h
    | cons dst rest =>
      simp only [hv, hrec, List.length_nil, le_refl, if_true, Bool.not_true, Bool.false_eq_true,
        if_false] at h
      cases hall : Reader.ReadAll { r with pos := 1, FieldsPerRecord := (dst.length : Int) } with
      | mk res k =>
        rw [hall] at h
        cases res with
        | error e => simp at h
        | ok data =>
          simp only [Prod.mk.injEq, Except.ok.injEq] at h
          obtain ⟨hinp, _⟩ := h
          obtain ⟨_, _, hdata⟩ := ReadAll_ok _ data k hall
          simp only [hrec, List.drop_succ_cons, List.drop_zero] at hdata
          subst hinp
          simp [hdata]
  · simp [hv] at h

theorem readRecords_header_uniform (o : Options) (r : Reader) (hcols : o.Columns = [])
    (hpos : r.pos = 0) (hfpr : r.FieldsPerRecord = 0) (header : Row) (rest : List Row)
    (hrec : (r.src r.Comma).records = header :: rest) (hv : validDelim r.Comma = true)
    (hm : (r.src r.Comma).malformed = false) (hall : ∀ rec ∈ rest, rec.length = header.length) :
    readRecords o r =
      (.ok { comma := r.Comma, columnNames := header, data := rest }, rest.length + 1) := by
  unfold readRecords
  rw [Read_at_start r hpos hfpr, hcols, hrec]
  have h2 := ReadAll_uniform { r with pos := 1, FieldsPerRecord := (header.length : Int) }
    header.length hv hm (Or.inr rfl) (by simpa [hrec] using hall)
  simp only [hrec, List.drop_succ_cons, List.drop_zero] at h2
  simp [hv, h2, Nat.add_comm]

theorem readRecords_configured_ok (o : Options) (r : Reader) (hcols : o.Columns ≠ [])
    (hpos : r.pos = 0) (inp : Input) (n : Nat) (h : readRecords o r = (.ok inp, n)) :
    inp.columnNames = o.Columns ∧ inp.data = (r.src r.Comma).records ∧
      inp.comma = r.Comma := by
  unfold readRecords at h
  have hlen : ¬ o.Columns.length ≤ 0 := by
    cases hc : o.Columns with
    | nil => exact absurd hc hcols
    | cons a l => simp
  rw [if_neg hlen] at h
  cases hall : r.ReadAll with
  | mk res k =>
    rw [hall] at h
    cases res with
    | error e => simp at h
    | ok data =>
      simp only [Prod.mk.injEq, Except.ok.injEq] at h
      obtain ⟨hinp, _⟩ := h
      obtain ⟨_, _, hdata⟩ := ReadAll_ok _ data k hall
      rw [hpos, List.drop_zero] at hdata
      subst hinp
      exact ⟨rfl, hdata, rfl⟩

theorem readRecords_configured_uniform (o : Options) (r : Reader) (hcols : o.Columns ≠ [])
    (hpos : r.pos = 0) (hfpr : r.FieldsPerRecord = 0) (len : Nat)
    (hv : validDelim r.Comma = true) (hm : (r.src r.Comma).malformed = false)
    (hall : ∀ rec ∈ (r.src r.Comma).records, rec.length = len) :
    readRecords o r =
      (.ok { comma := r.Comma, columnNames := o.Columns, data := (r.src r.Comma).records },
        (r.src r.Comma).records.length) := by
  unfold readRecords
  have hlen : ¬ o.Columns.length ≤ 0 := by
    cases hc : o.Columns with
    | nil => exact absurd hc hcols
    | cons a l => simp
  rw [if_neg hlen]
  have h2 := ReadAll_uniform r len hv hm (Or.inl hfpr) (by simpa [hpos] using hall)
  simp only [hpos, List.drop_zero, Nat.zero_add] at h2
  simp [h2]

/-- Claim C7.  On a run whose input is available and whose separator is the
one character `c`: with no columns configured, the first record the reader
yields is the column names and the remaining records are the data, every
stream of records of one length is read so, and a stream without a first
record ends the run with "unable to parse columns"; with columns configured,
the column names are `o.Columns` and the data is every record of the stream,
the first included.  The titles of the columns are the column names and the
rows of the table are the data. -/
theorem C7_header_or_configured_columns (env : Env) (o : Options) (reader : Reader)
    (c : Char) (hopen : openReader env o = .ok reader) (hsep : o.Separator.data = [c]) :
    (o.Columns = [] →
      ((reader.src c).records = [] → (Run env o).err = some .unableToParseColumns) ∧
      (∀ inp n, readInput o reader = (.ok inp, n) →
        (reader.src c).records = inp.columnNames :: inp.data) ∧
      (∀ header rest, (reader.src c).records = header :: rest → validDelim c = true →
        (reader.src c).malformed = false → (∀ rec ∈ rest, rec.length = header.length) →
        readInput o reader =
          (.ok { comma := c, columnNames := header, data := rest }, rest.length + 1))) ∧
    (o.Columns ≠ [] →
      (∀ inp n, readInput o reader = (.ok inp, n) →
        inp.columnNames = o.Columns ∧ inp.data = (reader.src c).records) ∧
      (∀ len : Nat, validDelim c = true → (reader.src c).malformed = false →
        (∀ rec ∈ (reader.src c).records, rec.length = len) →
        readInput o reader =
          (.ok { comma := c, columnNames := o.Columns, data := (reader.src c).records },
            (reader.src c).records.length))) ∧
    (∀ inp p, buildTable env o inp = .ok p →
      p.columnNames = inp.columnNames ∧ p.columns.map Column.Title = inp.columnNames ∧
      p.rows = inp.data ∧ (initialModel o p).table.rows = inp.data) := by
  obtain ⟨hpos, hfpr⟩ := openReader_ok env o reader hopen
  have hin := readInput_good_separator o reader c hsep
  refine ⟨fun hcols => ⟨?_, ?_, ?_⟩, fun hcols => ⟨?_, ?_⟩, ?_⟩
  · intro hrec
    have h := readRecords_header_empty o { reader with Comma := c } hcols hpos hfpr hrec
    simp only [Run, hopen, hin, h]
  · intro inp n h
    rw [hin] at h
    exact (readRecords_header_ok o { reader with Comma := c } hcols hpos hfpr inp n h).1
  · intro header rest hrec hv hm hall
    rw [hin]
    exact readRecords_header_uniform o { reader with Comma := c } hcols hpos hfpr header rest
      hrec hv hm hall
  · intro inp n h
    rw [hin] at h
    have := readRecords_configured_ok o { reader with Comma := c } hcols hpos inp n h
    exact ⟨this.1, this.2.1⟩
  · intro len hv hm hall
    rw [hin]
    exact readRecords_configured_uniform o { reader with Comma := c } hcols hpos hfpr len
      hv hm hall
  · intro inp p hp
    rcases buildTable_cases env o inp with ⟨_, hok⟩ | ⟨_, herr⟩
    · rw [hok] at hp
      cases hp
      exact ⟨rfl, buildColumnsFrom_titles _ _ _ 0, rfl, rfl⟩
    · rw [herr] at hp
      cases hp

/-- Witness of C7: on the records `name,val`, `a,1`, `b,2` the run without
configured columns takes `name,val` as column names and the two other records
as data, and the run with columns `x,y` takes all three records as data. -/
theorem C7_header_or_configured_columns_witness :
    readInput (sampleOptions "," [] true)
        (NewReader (fun _ =>
          { records := [["name", "val"], ["a", "1"], ["b", "2"]], malformed := false })) =
      (.ok { comma := Char.ofNat 44, columnNames := ["name", "val"],
             data := [["a", "1"], ["b", "2"]] }, 3) ∧
    readInput (sampleOptions "," ["x", "y"] true)
        (NewReader (fun _ =>
          { records := [["name", "val"], ["a", "1"], ["b", "2"]], malformed := false })) =
      (.ok { comma := Char.ofNat 44, columnNames := ["x", "y"],
             data := [["name", "val"], ["a", "1"], ["b", "2"]] }, 3) :=
  ⟨((C7_header_or_configured_columns
      (sampleEnv [["name", "val"], ["a", "1"], ["b", "2"]] cancelSession)
      (sampleOptions "," [] true)
      (NewReader (fun _ =>
        { records := [["name", "val"], ["a", "1"], ["b", "2"]], malformed := false }))
      (Char.ofNat 44) rfl rfl).1 rfl).2.2 ["name", "val"] [["a", "1"], ["b", "2"]] rfl
      (by decide) rfl (by decide),
   ((C7_header_or_configured_columns
      (sampleEnv [["name", "val"], ["a", "1"], ["b", "2"]] cancelSession)
      (sampleOptions "," ["x", "y"] true)
      (NewReader (fun _ =>
        { records := [["name", "val"], ["a", "1"], ["b", "2"]], malformed := false }))
      (Char.ofNat 44) rfl rfl).2.1 (by decide)).2 2 (by decide) rfl (by decide)⟩

/-! ## Claims on the selected row -/

theorem intercalate_go_eq (s : String) :
    ∀ (l : List String) (acc : String),
      String.intercalate.go acc s l = acc ++ joinTail s l := by
  intro l
  induction l with
  | nil => intro acc; simp [String.intercalate.go, joinTail]
  | cons a rest ih =>
    intro acc
    simp only [String.intercalate.go, ih, joinTail, String.append_assoc]

theorem intercalate_cons (s a : String) (l : List String) :
    String.intercalate s (a :: l) = a ++ joinTail s l := by
  simp only [String.intercalate, intercalate_go_eq]

theorem writeFields_succ (comma : Char) :
    ∀ (record : Row) (n : Nat),
      writeFields comma (n + 1) record =
        joinTail (String.singleton comma) (record.map (writeField comma)) := by
  intro record
  induction record with
  | nil => intro n; rfl
  | cons field rest ih =>
    intro n
    simp only [writeFields, ih, List.map_cons, joinTail, Nat.succ_pos, if_true,
      Nat.zero_lt_succ]

theorem writeFields_eq_intercalate (comma : Char) (record : Row) :
    writeFields comma 0 record =
      String.intercalate (String.singleton comma) (record.map (writeField comma)) := by
  cases record with
  | nil => rfl
  | cons field rest =>
    simp only [writeFields, writeFields_succ, List.map_cons, intercalate_cons,
      Nat.lt_irrefl, if_false, String.empty_append, Nat.zero_add]

theorem map_writeField_plain (comma : Char) :
    ∀ record : Row, (∀ cell ∈ record, fieldNeedsQuotes comma cell = false) →
      record.map (writeField comma) = record := by
  intro record
  induction record with
  | nil => intro _; rfl
  | cons cell rest ih =>
    intro h
    have hc := h cell (List.mem_cons_self _ _)
    have hr := ih (fun x hx => h x (List.mem_cons_of_mem _ hx))
    simp [writeField, hc, hr]

theorem readRecords_ok_validDelim (o : Options) (r : Reader) (inp : Input) (n : Nat)
    (h : readRecords o r = (.ok inp, n)) :
    validDelim r.Comma = true ∧ inp.comma = r.Comma := by
  unfold readRecords at h
  split at h
  · cases hread : r.Read with
    | mk res r2 =>
      rw [hread] at h
      cases res with
      | error e => simp at h
      | ok names =>
        dsimp only at h
        have hv : validDelim r.Comma = true := by
          unfold Reader.Read at hread
          by_cases hv : validDelim r.Comma = true
          · exact hv
          · simp [hv] at hread
        cases hall : r2.ReadAll with
        | mk res2 k =>
          rw [hall] at h
          cases res2 with
          | error e => simp at h
          | ok data =>
            simp only [Prod.mk.injEq, Except.ok.injEq] at h
            obtain ⟨hinp, _⟩ := h
            subst hinp
            exact ⟨hv, rfl⟩
  · cases hall : r.ReadAll with
    | mk res k =>
      rw [hall] at h
      cases res with
      | error e => simp at h
      | ok data =>
        simp only [Prod.mk.injEq, Except.ok.injEq] at h
        obtain ⟨hinp, _⟩ := h
        subst hinp
        exact ⟨(ReadAll_ok r data k hall).1, rfl⟩

theorem readInput_ok_separator (o : Options) (reader : Reader) (inp : Input) (n : Nat)
    (h : readInput o reader = (.ok inp, n)) :
    validDelim inp.comma = true ∧ o.Separator = String.singleton inp.comma := by
  unfold readInput at h
  split at h
  · rename_i c hc
    obtain ⟨hv, hcomma⟩ := readRecords_ok_validDelim o _ inp n h
    rw [hcomma]
    refine ⟨hv, ?_⟩
    show o.Separator = String.singleton c
    have : o.Separator = String.mk o.Separator.data := rfl
    rw [this, hc]
    rfl
  · simp at h

/-- The outcome of an interactive run whose session returns a final model and
no error: `Run` returns nil and standard output holds the selected row of the
final model as the csv writer writes it. -/
theorem Run_interactive (env : Env) (o : Options) (reader : Reader) (inp : Input) (n : Nat)
    (p : Prepared) (m : model) (hopen : openReader env o = .ok reader)
    (hread : readInput o reader = (.ok inp, n)) (hbuild : buildTable env o inp = .ok p)
    (hprint : o.Print = false)
    (hsession : env.teaRun (initialModel o p) = { tm := some m, err := none }) :
    Run env o =
      { err := none
        stdout := writeFields inp.comma 0 m.selected ++ String.singleton lfChar
        recordsRead := n } := by
  have hv := (readInput_ok_separator o reader inp n hread).1
  have hcomma : p.comma = inp.comma := by
    rcases buildTable_cases env o inp with ⟨_, hok⟩ | ⟨_, herr⟩
    · rw [hok] at hbuild
      cases hbuild
      rfl
    · rw [herr] at hbuild
      cases hbuild
  rw [Run_eq_of_read env o reader inp n hopen hread, hbuild]
  simp [finish, hprint, hsession, Writer.Write, hcomma, hv]

/-- Claim C2 fails on the code.  In an interactive run over the records
`name,val`, `a,1`, `b,2` whose session ends with a final model that carries no
selected row, `Run` returns nil, not an error, and writes one empty line to
standard output. -/
theorem C2_cancelled_run_returns_nil_and_writes_line :
    (cancelSession (initialModel (sampleOptions "," [] false)
        { comma := Char.ofNat 44, columnNames := ["name", "val"],
          data := [["a", "1"], ["b", "2"]],
          columns := [{ Title := "name", Width := 4 }, { Title := "val", Width := 3 }],
          styles := resolveStyles DefaultStyles (sampleOptions "," [] false),
          rows := [["a", "1"], ["b", "2"]] })).tm.map model.selected = some [] ∧
    (Run (sampleEnv [["name", "val"], ["a", "1"], ["b", "2"]] cancelSession)
        (sampleOptions "," [] false)).err = none ∧
    (Run (sampleEnv [["name", "val"], ["a", "1"], ["b", "2"]] cancelSession)
        (sampleOptions "," [] false)).stdout = String.singleton lfChar ∧
    (Run (sampleEnv [["name", "val"], ["a", "1"], ["b", "2"]] cancelSession)
        (sampleOptions "," [] false)).stdout ≠ "" := by
  refine ⟨by decide, by decide, by decide, by decide⟩

/-- Claim C3, as stated, fails.  With separator `,`, a confirmed row whose
first cell is `a,b` is written as `"a,b",c` and not as the cells joined by the
separator, `a,b,c`; and a confirmed row whose first cell holds a double quote
is written with the cell enclosed in quotes and its quote doubled. -/
theorem C3_confirmed_row_is_not_plain_join :
    ((Run (sampleEnv [["k", "v"], ["a,b", "c"]] (confirmSession ["a,b", "c"]))
        (sampleOptions "," [] false)).err = none ∧
     (Run (sampleEnv [["k", "v"], ["a,b", "c"]] (confirmSession ["a,b", "c"]))
        (sampleOptions "," [] false)).stdout =
        String.mk [quoteChar, 'a', Char.ofNat 44, 'b', quoteChar, Char.ofNat 44, 'c', lfChar] ∧
     (Run (sampleEnv [["k", "v"], ["a,b", "c"]] (confirmSession ["a,b", "c"]))
        (sampleOptions "," [] false)).stdout ≠
        String.intercalate "," ["a,b", "c"] ++ String.singleton lfChar) ∧
    ((Run (sampleEnv [["k", "v"], [String.mk ['x', quoteChar], "c"]]
          (confirmSession [String.mk ['x', quoteChar], "c"]))
        (sampleOptions "," [] false)).stdout =
        String.mk [quoteChar, 'x', quoteChar, quoteChar, quoteChar, Char.ofNat 44, 'c', lfChar] ∧
     (Run (sampleEnv [["k", "v"], [String.mk ['x', quoteChar], "c"]]
          (confirmSession [String.mk ['x', quoteChar], "c"]))
        (sampleOptions "," [] false)).stdout ≠
        String.intercalate "," [String.mk ['x', quoteChar], "c"] ++ String.singleton lfChar) := by
  refine ⟨⟨by decide, by decide, by decide⟩, by decide, by decide⟩

/-- Claim C3, amended.  In an interactive run that ends with final model `m`
and no error, `Run` returns nil and standard output is the record
`m.selected` as the csv writer encodes it: the cells, each as `writeField`
writes it (enclosed in double quotes, inner quotes doubled, when
`fieldNeedsQuotes` holds, unchanged otherwise), joined by the separator and
ended by a line feed.  When no cell needs quotes the output is exactly the
cells joined by the separator, ended by a line feed. -/
theorem C3_confirmed_row_is_csv_encoded (env : Env) (o : Options) (reader : Reader)
    (inp : Input) (n : Nat) (p : Prepared) (m : model)
    (hopen : openReader env o = .ok reader) (hread : readInput o reader = (.ok inp, n))
    (hbuild : buildTable env o inp = .ok p) (hprint : o.Print = false)
    (hsession : env.teaRun (initialModel o p) = { tm := some m, err := none }) :
    o.Separator = String.singleton inp.comma ∧
    (Run env o).err = none ∧
    (Run env o).stdout =
      String.intercalate o.Separator (m.selected.map (writeField inp.comma)) ++
        String.singleton lfChar ∧
    ((∀ cell ∈ m.selected, fieldNeedsQuotes inp.comma cell = false) →
      (Run env o).stdout = String.intercalate o.Separator m.selected ++
        String.singleton lfChar) := by
  have hsep := (readInput_ok_separator o reader inp n hread).2
  have hrun := Run_interactive env o reader inp n p m hopen hread hbuild hprint hsession
  rw [hrun, hsep]
  refine ⟨rfl, rfl, ?_, ?_⟩
  · show writeFields inp.comma 0 m.selected ++ String.singleton lfChar = _
    rw [writeFields_eq_intercalate]
  · intro hplain
    show writeFields inp.comma 0 m.selected ++ String.singleton lfChar = _
    rw [writeFields_eq_intercalate, map_writeField_plain inp.comma m.selected hplain]

/-- Witness of the amended C3: the confirmed row `b,2`. -/
theorem C3_confirmed_row_is_csv_encoded_witness :
    (Run (sampleEnv [["name", "val"], ["a", "1"], ["b", "2"]] (confirmSession ["b", "2"]))
        (sampleOptions "," [] false)).stdout = "b,2\n" :=
  ((C3_confirmed_row_is_csv_encoded
    (sampleEnv [["name", "val"], ["a", "1"], ["b", "2"]] (confirmSession ["b", "2"]))
    (sampleOptions "," [] false)
    (NewReader (fun _ =>
      { records := [["name", "val"], ["a", "1"], ["b", "2"]], malformed := false }))
    { comma := Char.ofNat 44, columnNames := ["name", "val"], data := [["a", "1"], ["b", "2"]] }
    3
    { comma := Char.ofNat 44, columnNames := ["name", "val"], data := [["a", "1"], ["b", "2"]],
      columns := buildColumns (fun s => (s.length : Int)) [] ["name", "val"],
      styles := resolveStyles DefaultStyles (sampleOptions "," [] false),
      rows := [["a", "1"], ["b", "2"]] }
    { table := tableNew (buildColumns (fun s => (s.length : Int)) [] ["name", "val"]) true 10
        [["a", "1"], ["b", "2"]] (resolveStyles DefaultStyles (sampleOptions "," [] false)),
      selected := ["b", "2"] }
    rfl rfl rfl rfl rfl).2.2.2 (by decide)).trans (by decide)

/-! ## Claim on the styles -/

theorem Inherit_kept (s i : Style) (k : PropKey) (v : Value) (h : s.rules k = some v) :
    (s.Inherit i).rules k = some v := by
  simp [Style.Inherit, h]

theorem Inherit_copied (s i : Style) (k : PropKey) (h : s.rules k = none)
    (hm : k.isMargin = false) (hp : k.isPadding = false) (hb : k ≠ .marginBackgroundKey) :
    (s.Inherit i).rules k = i.rules k := by
  simp [Style.Inherit, h, hm, hp, hb]

theorem Inherit_skipped (s i : Style) (k : PropKey)
    (h : k.isMargin = true ∨ k.isPadding = true) :
    (s.Inherit i).rules k = s.rules k := by
  cases hs : s.rules k with
  | some v => simp [Style.Inherit, hs]
  | none => rcases h with h | h <;> simp [Style.Inherit, hs, h]

theorem Inherit_marginBackground (s i : Style) (h : s.rules .marginBackgroundKey = none) :
    (s.Inherit i).rules .marginBackgroundKey =
      match i.rules .marginBackgroundKey with
      | some v => some v
      | none => i.rules .backgroundKey := by
  simp [Style.Inherit, h, PropKey.isMargin, PropKey.isPadding]

/-- Claim C6, as stated, fails.  With the built-in defaults: a caller's header
style that sets bold to false leaves the effective header bold true, the
default's value, although both set the attribute; a caller's cell style that
sets the left padding to 3 leaves the effective left padding 1; and a caller's
selected style that sets nothing gives an effective selected style with no
bold and no foreground, where the default selected style has bold true and
foreground 212. -/
theorem C6_override_does_not_win :
    ((resolveStyles DefaultStyles
        { sampleOptions "," [] false with
          HeaderStyle := NewStyle.set .boldKey (.flag false) }).Header.rules .boldKey =
        some (.flag true) ∧
     DefaultStyles.Header.rules .boldKey = some (.flag true) ∧
     (NewStyle.set .boldKey (.flag false)).rules .boldKey = some (.flag false)) ∧
    ((resolveStyles DefaultStyles
        { sampleOptions "," [] false with
          CellStyle := NewStyle.set .paddingLeftKey (.num 3) }).Cell.rules .paddingLeftKey =
        some (.num 1)) ∧
    ((resolveStyles DefaultStyles (sampleOptions "," [] false)).Selected.rules .boldKey = none ∧
     (resolveStyles DefaultStyles (sampleOptions "," [] false)).Selected.rules .foregroundKey =
        none ∧
     DefaultStyles.Selected.rules .boldKey = some (.flag true) ∧
     DefaultStyles.Selected.rules .foregroundKey = some (.text "212")) := by
  refine ⟨⟨by decide, by decide, by decide⟩, by decide, by decide, by decide, by decide,
    by decide⟩

/-- Claim C6, amended.  For the header and the cell role the effective style
keeps every attribute the default sets; an attribute the default leaves unset
takes the caller's value, except that margins and paddings are never taken
from the caller and that an unset margin background takes the caller's margin
background or, when the caller sets none, the caller's background.  The
selected style is the caller's style as it is, with no fallback. -/
theorem C6_style_resolution (defaultStyles : Styles) (o : Options) (k : PropKey) :
    (resolveStyles defaultStyles o).ofRole .selected = o.override .selected ∧
    (∀ role : Role, role ≠ .selected →
      (∀ v, (defaultStyles.ofRole role).rules k = some v →
        ((resolveStyles defaultStyles o).ofRole role).rules k = some v) ∧
      ((defaultStyles.ofRole role).rules k = none → k.isMargin = false →
        k.isPadding = false → k ≠ .marginBackgroundKey →
        ((resolveStyles defaultStyles o).ofRole role).rules k = (o.override role).rules k) ∧
      ((k.isMargin = true ∨ k.isPadding = true) →
        ((resolveStyles defaultStyles o).ofRole role).rules k =
          (defaultStyles.ofRole role).rules k) ∧
      ((defaultStyles.ofRole role).rules .marginBackgroundKey = none →
        ((resolveStyles defaultStyles o).ofRole role).rules .marginBackgroundKey =
          match (o.override role).rules .marginBackgroundKey with
          | some v => some v
          | none => (o.override role).rules .backgroundKey)) ∧
    (∀ p env inp, buildTable env o inp = .ok p →
      p.styles = resolveStyles DefaultStyles o ∧
      (initialModel o p).table.styles = resolveStyles DefaultStyles o) := by
  refine ⟨rfl, ?_, ?_⟩
  · intro role hrole
    cases role with
    | selected => exact absurd rfl hrole
    | header =>
      exact ⟨fun v h => Inherit_kept _ _ k v h, fun h hm hp hb => Inherit_copied _ _ k h hm hp hb,
        fun h => Inherit_skipped _ _ k h, fun h => Inherit_marginBackground _ _ h⟩
    | cell =>
      exact ⟨fun v h => Inherit_kept _ _ k v h, fun h hm hp hb => Inherit_copied _ _ k h hm hp hb,
        fun h => Inherit_skipped _ _ k h, fun h => Inherit_marginBackground _ _ h⟩
  · intro p env inp hp
    rcases buildTable_cases env o inp with ⟨_, hok⟩ | ⟨_, herr⟩
    · rw [hok] at hp
      cases hp
      exact ⟨rfl, rfl⟩
    · rw [herr] at hp
      cases hp

/-- A check of the amended C6 with the built-in defaults and a caller's header
style that sets the foreground to 99 and bold to false: the foreground is the
caller's, bold stays the default's. -/
theorem C6_style_resolution_witness :
    ((resolveStyles DefaultStyles
        { sampleOptions "," [] false with
          HeaderStyle := (NewStyle.set .foregroundKey (.text "99")).set .boldKey
            (.flag false) }).ofRole .header).rules .foregroundKey = some (.text "99") ∧
    ((resolveStyles DefaultStyles
        { sampleOptions "," [] false with
          HeaderStyle := (NewStyle.set .foregroundKey (.text "99")).set .boldKey
            (.flag false) }).ofRole .header).rules .boldKey = some (.flag true) :=
  ⟨((C6_style_resolution DefaultStyles
        { sampleOptions "," [] false with
          HeaderStyle := (NewStyle.set .foregroundKey (.text "99")).set .boldKey (.flag false) }
        .foregroundKey).2.1 .header (by decide)).2.1 (by decide) (by decide) (by decide)
      (by decide) |>.trans (by decide),
   ((C6_style_resolution DefaultStyles
        { sampleOptions "," [] false with
          HeaderStyle := (NewStyle.set .foregroundKey (.text "99")).set .boldKey (.flag false) }
        .boldKey).2.1 .header (by decide)).1 (.flag true) (by decide)⟩

/-! ## Claim on the interactive table controller -/

theorem step_preserves (s : TableState) (e : Event) (hlen : 1 ≤ (s.rows.length : Int))
    (hinv : 0 ≤ s.cursor ∧ s.cursor ≤ (s.rows.length : Int) - 1 ∧ 0 ≤ s.windowStart ∧
      s.windowStart ≤ s.cursor ∧ s.cursor ≤ s.windowEnd) :
    (s.step e).rows = s.rows ∧ (s.step e).viewportHeight = s.viewportHeight ∧
    0 ≤ (s.step e).cursor ∧ (s.step e).cursor ≤ (s.rows.length : Int) - 1 ∧
    0 ≤ (s.step e).windowStart ∧ (s.step e).windowStart ≤ (s.step e).cursor ∧
    (s.step e).cursor ≤ (s.step e).windowEnd := by
  obtain ⟨h0, h1, h2, h3, h4⟩ := hinv
  unfold TableState.windowEnd at h4
  unfold TableState.step
  cases hphase : s.phase with
  | browsing =>
    cases e with
    | moveDown =>
      simp only [TableState.scroll, TableState.windowEnd, clamp]
      split_ifs <;> refine ⟨rfl, rfl, ?_, ?_, ?_, ?_, ?_⟩ <;> dsimp only <;> omega
    | moveUp =>
      simp only [TableState.scroll, TableState.windowEnd, clamp]
      split_ifs <;> refine ⟨rfl, rfl, ?_, ?_, ?_, ?_, ?_⟩ <;> dsimp only <;> omega
    | confirm => exact ⟨rfl, rfl, h0, h1, h2, h3, h4⟩
    | cancel => exact ⟨rfl, rfl, h0, h1, h2, h3, h4⟩
  | confirmed => exact ⟨rfl, rfl, h0, h1, h2, h3, h4⟩
  | cancelled => exact ⟨rfl, rfl, h0, h1, h2, h3, h4⟩

theorem run_preserves (events : List Event) :
    ∀ s : TableState, 1 ≤ (s.rows.length : Int) →
      (0 ≤ s.cursor ∧ s.cursor ≤ (s.rows.length : Int) - 1 ∧ 0 ≤ s.windowStart ∧
        s.windowStart ≤ s.cursor ∧ s.cursor ≤ s.windowEnd) →
      (s.run events).rows = s.rows ∧
      0 ≤ (s.run events).cursor ∧ (s.run events).cursor ≤ (s.rows.length : Int) - 1 ∧
      0 ≤ (s.run events).windowStart ∧ (s.run events).windowStart ≤ (s.run events).cursor ∧
      (s.run events).cursor ≤ (s.run events).windowEnd := by
  induction events with
  | nil =>
    intro s _ hinv
    exact ⟨rfl, hinv⟩
  | cons e rest ih =>
    intro s hlen hinv
    obtain ⟨hr, _, h0, h1, h2, h3, h4⟩ := step_preserves s e hlen hinv
    have := ih (s.step e) (by rw [hr]; exact hlen) ⟨h0, by rw [hr]; exact h1, h2, h3, h4⟩
    rw [hr] at this
    exact this

/-- Claim C10, as stated, fails.  With viewport height 0 and one row, the
table `Run` constructs has cursor 0 and a window of no rows, `[0, -1]`, which
does not contain the cursor row, before any event and after a move-down. -/
theorem C10_window_of_height_zero_misses_cursor :
    (initialModel (sampleOptionsHeight 0) (samplePrepared [["a"]])).table.height = 0 ∧
    (TableState.ofTable
      (initialModel (sampleOptionsHeight 0) (samplePrepared [["a"]])).table).cursor = 0 ∧
    (TableState.ofTable
      (initialModel (sampleOptionsHeight 0) (samplePrepared [["a"]])).table).windowEnd = -1 ∧
    ¬ ((TableState.ofTable
        (initialModel (sampleOptionsHeight 0) (samplePrepared [["a"]])).table).cursor ≤
       (TableState.ofTable
        (initialModel (sampleOptionsHeight 0) (samplePrepared [["a"]])).table).windowEnd) ∧
    ¬ (((TableState.ofTable
        (initialModel (sampleOptionsHeight 0) (samplePrepared [["a"]])).table).run
          [.moveDown]).windowStart ≤
       ((TableState.ofTable
        (initialModel (sampleOptionsHeight 0) (samplePrepared [["a"]])).table).run
          [.moveDown]).cursor ∧
       ((TableState.ofTable
        (initialModel (sampleOptionsHeight 0) (samplePrepared [["a"]])).table).run
          [.moveDown]).cursor ≤
       ((TableState.ofTable
        (initialModel (sampleOptionsHeight 0) (samplePrepared [["a"]])).table).run
          [.moveDown]).windowEnd) := by
  refine ⟨by decide, by decide, by decide, by decide, by decide⟩

/-- Claim C10, amended.  For the table `Run` constructs with a non-empty row
list and a viewport height of at least 1, after every finite sequence of
events the cursor is within `[0, rowCount-1]` and within the visible window
`[windowStart, windowEnd]`; and with height 1 and five rows, four move-downs
from cursor 0 give cursor 4 and window `[4, 4]`, and confirming then selects
the row of index 4. -/
theorem C10_cursor_stays_in_window (o : Options) (p : Prepared) (events : List Event)
    (hrows : p.rows ≠ []) (hheight : 1 ≤ o.Height) :
    ((TableState.ofTable (initialModel o p).table).cursor = 0 ∧
     (TableState.ofTable (initialModel o p).table).focused = true ∧
     (TableState.ofTable (initialModel o p).table).viewportHeight = o.Height ∧
     (TableState.ofTable (initialModel o p).table).rows = p.rows) ∧
    (0 ≤ ((TableState.ofTable (initialModel o p).table).run events).cursor ∧
     ((TableState.ofTable (initialModel o p).table).run events).cursor ≤
       (p.rows.length : Int) - 1 ∧
     ((TableState.ofTable (initialModel o p).table).run events).windowStart ≤
       ((TableState.ofTable (initialModel o p).table).run events).cursor ∧
     ((TableState.ofTable (initialModel o p).table).run events).cursor ≤
       ((TableState.ofTable (initialModel o p).table).run events).windowEnd) ∧
    (((TableState.ofTable (initialModel (sampleOptionsHeight 1)
          (samplePrepared [["a"], ["b"], ["c"], ["d"], ["e"]])).table).run
        [.moveDown, .moveDown, .moveDown, .moveDown]).cursor = 4 ∧
     ((TableState.ofTable (initialModel (sampleOptionsHeight 1)
          (samplePrepared [["a"], ["b"], ["c"], ["d"], ["e"]])).table).run
        [.moveDown, .moveDown, .moveDown, .moveDown]).windowStart = 4 ∧
     ((TableState.ofTable (initialModel (sampleOptionsHeight 1)
          (samplePrepared [["a"], ["b"], ["c"], ["d"], ["e"]])).table).run
        [.moveDown, .moveDown, .moveDown, .moveDown]).windowEnd = 4 ∧
     ((TableState.ofTable (initialModel (sampleOptionsHeight 1)
          (samplePrepared [["a"], ["b"], ["c"], ["d"], ["e"]])).table).run
        [.moveDown, .moveDown, .moveDown, .moveDown, .confirm]).selected = some ["e"] ∧
     ((TableState.ofTable (initialModel (sampleOptionsHeight 1)
          (samplePrepared [["a"], ["b"], ["c"], ["d"], ["e"]])).table).run
        [.moveDown, .moveDown, .moveDown, .moveDown, .confirm]).phase = .confirmed) := by
  refine ⟨⟨rfl, rfl, rfl, rfl⟩, ?_, by decide, by decide, by decide, by decide, by decide⟩
  have hlen : 1 ≤ (p.rows.length : Int) := by
    cases hp : p.rows with
    | nil => exact absurd hp hrows
    | cons r rest => simp only [List.length_cons]; omega
  have h := run_preserves events (TableState.ofTable (initialModel o p).table) hlen
    ⟨le_refl _, by show (0 : Int) ≤ (p.rows.length : Int) - 1; omega, le_refl _, le_refl _,
      by show (0 : Int) ≤ 0 + o.Height - 1; omega⟩
  exact ⟨h.2.1, h.2.2.1, h.2.2.2.2.1, h.2.2.2.2.2⟩

/-- Witness of the amended C10: height 2, three rows, the events down, down,
up, down, down. -/
theorem C10_cursor_stays_in_window_witness :
    ((TableState.ofTable (initialModel (sampleOptionsHeight 2)
        (samplePrepared [["a"], ["b"], ["c"]])).table).run
      [.moveDown, .moveDown, .moveUp, .moveDown, .moveDown]).windowStart ≤
    ((TableState.ofTable (initialModel (sampleOptionsHeight 2)
        (samplePrepared [["a"], ["b"], ["c"]])).table).run
      [.moveDown, .moveDown, .moveUp, .moveDown, .moveDown]).cursor :=
  (C10_cursor_stays_in_window (sampleOptionsHeight 2) (samplePrepared [["a"], ["b"], ["c"]])
    [.moveDown, .moveDown, .moveUp, .moveDown, .moveDown] (by decide) (by decide)).2.1.2.2.1

end GumTable
